import Mathlib

/-!
Shallow embedding of `presamples/loader.py` (class `PackagesDataLoader`).

Conventions of the embedding:
* Python dicts with a fixed set of keys become structures; keys that may be
  absent become `Option` fields (reading an absent key is a `KeyError`).
* Truthiness of `obj.get('matrix')` / `obj.get('names')` is modelled by
  `matrix ≠ ""` and `names ≠ []` (absent and falsy collapse, as both are
  skipped identically by the code).
* Numpy record arrays become `List IndexRecord`; the label-name indirection
  (`elem['indices'][elem['row from label']]`) is modelled by reading the
  record field directly, since a consolidated group's labels always name the
  corresponding record columns.
* Exceptions become `Except LoadErr`; the `assert` on conflicting matrices
  raises what the spec calls `ConflictingMatrixTarget`.
* Sample values are integers (`Int`); matrices are total functions
  `Nat → Nat → Int` written by element-wise assignment, later writes winning.
-/

/-- Record of one row of a resource's raw-identifier table (`indices.npy`).
`rowFrom`/`colFrom` are the raw identifiers, `rowTo`/`colTo` the columns named
by `row to label` / `col to label` (initially equal to the raw identifiers),
`typeCode` the `type` column used by the technosphere fix-up. -/
structure IndexRecord where
  rowFrom : Nat
  rowTo : Nat
  colFrom : Nat
  colTo : Nat
  typeCode : Nat
  deriving DecidableEq, Repr, Inhabited

/-- One resource descriptor from a package manifest, together with the data
files it references (`indices.npy` preloaded into `indices`, the samples file
into `samples`, its dtype into `indicesDtype`). -/
structure RawResource where
  rtype : String
  matrix : String
  rowFromLabel : String
  rowToLabel : String
  rowDict : String
  colFromLabel : Option String
  colToLabel : Option String
  colDict : Option String
  names : List String
  indicesDtype : List String
  indices : List IndexRecord
  samples : List (List Int)
  deriving DecidableEq, Repr

/-- A resource is matrix-bound when `obj.get('matrix')` is truthy. -/
def isMatrixBound (r : RawResource) : Bool :=
  r.matrix ≠ ""

/-- A resource is a named-parameter resource when `obj.get('names')` is truthy. -/
def hasNames (r : RawResource) : Bool :=
  r.names ≠ []

/-- Errors raised during `load_data`/`consolidate`:
`conflictingMatrixTarget` is the `assert ... "Conflicting matrices"`,
`conflictingLabels` the `ConflictingLabels` exception, `incompatibleIndices`
the `IncompatibleIndices` exception, and `keyError` a Python `KeyError` from
reading an absent metadata key. -/
inductive LoadErr where
  | conflictingMatrixTarget
  | conflictingLabels
  | incompatibleIndices
  | keyError
  deriving DecidableEq, Repr

/-- A consolidated resource group: the first member's metadata plus the
row-wise concatenated identifier table and sample segments.  The `indexed`
key is absent after consolidation, modelled by `indexed = false`. -/
structure ResourceGroup where
  rtype : String
  matrix : String
  rowFromLabel : String
  rowToLabel : String
  rowDict : String
  colFromLabel : Option String
  colToLabel : Option String
  colDict : Option String
  indices : List IndexRecord
  samples : List (List Int)
  indexed : Bool
  deriving DecidableEq, Repr

/-- The row-label triple `(el['row from label'], el['row to label'], el['row dict'])`.
These keys are always present on matrix-bound resources. -/
def rowTriple (r : RawResource) : String × String × String :=
  (r.rowFromLabel, r.rowToLabel, r.rowDict)

/-- The column-label triple `(el['col from label'], el['col to label'], el['col dict'])`;
reading it raises `KeyError` as soon as one of the three keys is absent. -/
def colTriple (r : RawResource) : Except LoadErr (String × String × String) :=
  match r.colFromLabel, r.colToLabel, r.colDict with
  | some a, some b, some c => Except.ok (a, b, c)
  | _, _, _ => Except.error LoadErr.keyError

/-- Sequential effectful map over a list, propagating the first error — the
shape of every `for` loop in `load_data` that may raise. -/
def mapMExcept (f : α → Except LoadErr β) : List α → Except LoadErr (List β)
  | [] => Except.ok []
  | a :: l =>
    match f a with
    | Except.error e => Except.error e
    | Except.ok b =>
      match mapMExcept f l with
      | Except.error e => Except.error e
      | Except.ok bs => Except.ok (b :: bs)

/-- The column-label agreement check of `consolidate`: build the set of
column triples (raising `KeyError` on a member missing a column key) and
require it to be a singleton, else `ConflictingLabels`. -/
def checkColTriples (group : List RawResource) : Except LoadErr Unit :=
  match mapMExcept colTriple group with
  | Except.error e => Except.error e
  | Except.ok ts =>
    if ts.dedup.length = 1 then Except.ok () else Except.error LoadErr.conflictingLabels

/-- `PackagesDataLoader.consolidate(dirpath, group)`.  The `dirpath` argument
only locates the data files, which are preloaded here, so it is dropped.
Checks, in source order: all members share one `matrix` value (the assert the
spec calls `ConflictingMatrixTarget`); all members share one row-label triple;
if any member has a `col dict` key, all members share one column-label triple
(reading every member's three column keys); all identifier tables share one
dtype.  Returns the first member's metadata with the concatenated identifier
table and sample segments. -/
def consolidate (group : List RawResource) : Except LoadErr ResourceGroup :=
  if (group.map (·.matrix)).dedup.length ≠ 1 then
    Except.error LoadErr.conflictingMatrixTarget
  else if (group.map rowTriple).dedup.length ≠ 1 then
    Except.error LoadErr.conflictingLabels
  else
    match (if group.any (fun r => r.colDict.isSome) then checkColTriples group else Except.ok ()) with
    | Except.error e => Except.error e
    | Except.ok _ =>
      if (group.map (·.indicesDtype)).dedup.length ≠ 1 then
        Except.error LoadErr.incompatibleIndices
      else
        match group with
        | [] => Except.error LoadErr.conflictingMatrixTarget
        | g0 :: _ =>
          Except.ok
            { rtype := g0.rtype
              matrix := g0.matrix
              rowFromLabel := g0.rowFromLabel
              rowToLabel := g0.rowToLabel
              rowDict := g0.rowDict
              colFromLabel := g0.colFromLabel
              colToLabel := g0.colToLabel
              colDict := g0.colDict
              indices := (group.map (·.indices)).flatten
              samples := (group.map (·.samples)).flatten
              indexed := false }

/-- Stable insertion of a resource into a list already sorted by `rtype`;
together with `sortByType` this models Python's stable `resources.sort(key=lambda x: x['type'])`. -/
def insertByKey (r : RawResource) : List RawResource → List RawResource
  | [] => [r]
  | s :: rest =>
    if s.rtype < r.rtype then s :: insertByKey r rest else r :: s :: rest

/-- Stable sort of the matrix-bound resources by their `type` key. -/
def sortByType (l : List RawResource) : List RawResource :=
  l.foldr insertByKey []

/-- `itertools.groupby` on the `type` key: split a list into maximal runs of
consecutive resources with equal `rtype`. -/
def groupRuns : List RawResource → List (List RawResource)
  | [] => []
  | r :: rest =>
    match groupRuns rest with
    | [] => [[r]]
    | [] :: gs => [r] :: gs
    | (s :: g) :: gs =>
      if r.rtype = s.rtype then (r :: s :: g) :: gs else [r] :: (s :: g) :: gs

/-- Modelled from the spec: the repository's `Indexer` class lives in a file
that is not part of the reviewed sources.  Per the spec it is a deterministic,
seeded pseudo-random sequence generator; `prand` is a concrete deterministic
function of the seed and the advance count standing in for its RNG. -/
def prand (seed : Nat) (step : Nat) : Nat :=
  (seed * 6364136223846793005 + step * 1442695040888963407 + 12345) % 2 ^ 64

/-- Modelled from the spec: the state of an `Indexer` — its seed (possibly
absent, meaning an unseeded RNG modelled with seed 0) and how many times it
has been advanced. -/
structure Indexer where
  seed : Option Nat
  steps : Nat
  deriving DecidableEq, Repr

/-- Modelled from the spec: a freshly constructed `Indexer(seed)`. -/
def mkIndexer (seed : Option Nat) : Indexer :=
  { seed := seed, steps := 0 }

/-- Modelled from the spec: the current sample index of an `Indexer`; reading
it without advancing is idempotent. -/
def Indexer.index (i : Indexer) : Nat :=
  prand (i.seed.getD 0) i.steps

/-- Modelled from the spec: `next(indexer)` deterministically derives the
next index from the internal state. -/
def Indexer.advance (i : Indexer) : Indexer :=
  { i with steps := i.steps + 1 }

/-- Advance an `Indexer` `n` times. -/
def advanceN (i : Indexer) : Nat → Indexer
  | 0 => i
  | n + 1 => (advanceN i n).advance

/-- The sequence of the first `n` indices produced by advancing an `Indexer`. -/
def indexTrace (i : Indexer) (n : Nat) : List Nat :=
  (List.range n).map (fun k => (advanceN i (k + 1)).index)

/-- Modelled from the spec: `IrregularPresamplesArray.sample(index)` returns
the column at `index` across all row segments without loading the rest; the
store is modelled as its list of rows. -/
def sampleColumn (rows : List (List Int)) (j : Nat) : List Int :=
  rows.map (fun row => row.getD j 0)

/-- The parsed `datapackage.json` manifest of one presamples directory. -/
structure Manifest where
  name : String
  id : String
  seed : Option Nat
  resources : List RawResource
  deriving DecidableEq, Repr

/-- The dictionary `load_data` returns for one package: consolidated
matrix-bound groups, the parameter resources (empty list models the `None`
of an absent `parameter-metadata`), and the package's `Indexer`. -/
structure PackageData where
  name : String
  id : String
  seed : Option Nat
  matrixData : List ResourceGroup
  parameterMetadata : List RawResource
  indexer : Indexer
  deriving DecidableEq, Repr

/-- `PackagesDataLoader.load_data(dirpath, seed)`: filter the matrix-bound
resources, stable-sort and group them by `type`, consolidate each group, and
build the package's `Indexer` from `get_seed = lambda x: seed if seed is not
None else x` applied to the manifest seed. -/
def loadData (m : Manifest) (seedOverride : Option Nat) : Except LoadErr PackageData :=
  let resources := (m.resources.filter isMatrixBound)
  match mapMExcept consolidate (groupRuns (sortByType resources)) with
  | Except.error e => Except.error e
  | Except.ok mdata =>
    Except.ok
      { name := m.name
        id := m.id
        seed := m.seed
        matrixData := mdata
        parameterMetadata := m.resources.filter hasNames
        indexer := mkIndexer (seedOverride.or m.seed) }

/-- The state of a `PackagesDataLoader`: the sections with matrix data, the
parameter metadata, and the three indexer lists.  In Python `msi`/`psi` alias
the very same `Indexer` objects held by the sections; the pure model keeps
the copies in sync explicitly. -/
structure Loader where
  seed : Option Nat
  data : List PackageData
  parameterMetadata : List (List RawResource)
  sampleIndexers : List Indexer
  msi : List Indexer
  psi : List Indexer
  empty : Bool

/-- `PackagesDataLoader.__init__(dirpaths, seed)`: load every package,
keep the sections with matrix data in `data`/`msi`, the sections with
parameter metadata in `parameter_metadata`/`psi`, all indexers in
`sample_indexers`, and set `empty = not bool(self.data)`. -/
def mkLoader (manifests : List Manifest) (seed : Option Nat) : Except LoadErr Loader :=
  match mapMExcept (fun m => loadData m seed) manifests with
  | Except.error e => Except.error e
  | Except.ok sections =>
    let dataSections := sections.filter (fun s => !s.matrixData.isEmpty)
    let paramSections := sections.filter (fun s => !s.parameterMetadata.isEmpty)
    Except.ok
      { seed := seed
        data := dataSections
        parameterMetadata := paramSections.map (·.parameterMetadata)
        sampleIndexers := sections.map (·.indexer)
        msi := dataSections.map (·.indexer)
        psi := paramSections.map (·.indexer)
        empty := dataSections.isEmpty }

/-- A target matrix, indexable and writable by `[row, col]`. -/
def Mat : Type := Nat → Nat → Int

/-- The target model (the `lca` argument): named identifier dictionaries and
named matrices, both looked up by attribute name at call time; an absent
attribute is `none` (`hasattr` false / `AttributeError`).  Modelled from the
spec at the boundary: a dictionary maps raw identifiers to positions and, per
the loader's documented assumption, every raw identifier is present, so a
present dictionary is a total function. -/
structure LCA where
  dicts : String → Option (Nat → Nat)
  matrices : String → Option Mat

/-- A null/placeholder target: no attribute lookup succeeds. -/
def nullLCA : LCA :=
  { dicts := fun _ => none, matrices := fun _ => none }

/-- Modelled from the spec: `bw2calc.indexing.index_with_arrays` (external to
this repository) overwrites each `row to label` entry with the dictionary
image of the corresponding raw identifier.  `resolveElem` performs the resolve
branch of `index_arrays` on one group: rewrite the row positions, rewrite the
column positions when a `col dict` is declared, and set `indexed = True`. -/
def resolveElem (lca : LCA) (g : ResourceGroup) : ResourceGroup :=
  let rowMap := (lca.dicts g.rowDict).getD (fun n => n)
  let ind1 := g.indices.map (fun r => { r with rowTo := rowMap r.rowFrom })
  let ind2 :=
    match g.colDict with
    | some cd =>
      let colMap := (lca.dicts cd).getD (fun n => n)
      ind1.map (fun r => { r with colTo := colMap r.colFrom })
    | none => ind1
  { g with indices := ind2, indexed := true }

/-- The body of the `index_arrays` loop for one group `elem`: skip if already
indexed, skip if the target lacks the row dictionary, skip if a `col dict` is
declared and the target lacks it; otherwise resolve. -/
def indexElem (lca : LCA) (g : ResourceGroup) : ResourceGroup :=
  if g.indexed then g
  else if (lca.dicts g.rowDict).isNone then g
  else if g.colDict.isSome && (lca.dicts (g.colDict.getD "")).isNone then g
  else resolveElem lca g

/-- `PackagesDataLoader.index_arrays(lca)` with its `@nonempty` guard:
a no-op when `empty`, else apply `indexElem` to every group of every section. -/
def indexArrays (l : Loader) (lca : LCA) : Loader :=
  if l.empty then l
  else
    { l with
        data := l.data.map (fun d => { d with matrixData := d.matrixData.map (indexElem lca) }) }

/-- Element-wise fancy assignment `matrix[rows, cols] = sample`: assign the
pairs in order, a later duplicate position overwriting an earlier one. -/
def writePairs (m : Mat) : List ((Nat × Nat) × Int) → Mat
  | [] => m
  | pv :: rest =>
    writePairs (fun r c => if r = pv.1.1 ∧ c = pv.1.2 then pv.2 else m r c) rest

/-- Modelled from the spec: `bw2calc`'s `fix_supply_use` (external to this
repository) flips the sign of the sampled value of every record whose `type`
code marks a consumed (technosphere-input) exchange, leaving other records
unchanged. -/
def fixSupplyUse (indices : List IndexRecord) (vs : List Int) : List Int :=
  (indices.zip vs).map (fun rv => if rv.1.typeCode = 1 then -rv.2 else rv.2)

/-- The vector of values `update_matrices` writes for one group at sample
index `idx`: the sampled column, sign-fixed first when the group's type is
`technosphere`. -/
def writeValues (g : ResourceGroup) (idx : Nat) : List Int :=
  let s := sampleColumn g.samples idx
  if g.rtype = "technosphere" then fixSupplyUse g.indices s else s

/-- The matrix position a record is written to: `(row to, col to)` when the
group declares a `col dict`, else the diagonal `(row to, row to)`. -/
def targetPos (g : ResourceGroup) (r : IndexRecord) : Nat × Nat :=
  if g.colDict.isSome then (r.rowTo, r.colTo) else (r.rowTo, r.rowTo)

/-- `matrices is not None and elem['matrix'] not in matrices`. -/
def fltrExcludes : Option (List String) → String → Bool
  | none, _ => false
  | some ms, n => !ms.contains n

/-- The body of the `update_matrices` loop for one group: skip silently when
the target lacks the named matrix (`AttributeError` caught) or the matrix is
excluded by the filter; otherwise draw the current sample column, apply the
technosphere fix-up, and assign it at the groups' positions. -/
def updateElem (lca : LCA) (idx : Nat) (fltr : Option (List String)) (g : ResourceGroup) : LCA :=
  match lca.matrices g.matrix with
  | none => lca
  | some m =>
    if fltrExcludes fltr g.matrix then lca
    else
      let m2 := writePairs m ((g.indices.map (targetPos g)).zip (writeValues g idx))
      { lca with matrices := fun n => if n = g.matrix then some m2 else lca.matrices n }

/-- `PackagesDataLoader.update_matrices(lca, matrices)` with its `@nonempty`
guard: a no-op when `empty`, else process every group of every section with
that section's current sample index (`zip(self.msi, self.data)`). -/
def updateMatrices (l : Loader) (lca : LCA) (fltr : Option (List String)) : LCA :=
  if l.empty then lca
  else
    (l.msi.zip l.data).foldl
      (fun acc p => p.2.matrixData.foldl (fun a g => updateElem a p.1.index fltr g) acc)
      lca

/-- `PackagesDataLoader.update_sample_indices()`: advance every package's
indexer.  In Python `msi`/`psi` and the sections alias the same objects, so
the pure model advances every copy. -/
def updateSampleIndices (l : Loader) : Loader :=
  { l with
      sampleIndexers := l.sampleIndexers.map Indexer.advance
      msi := l.msi.map Indexer.advance
      psi := l.psi.map Indexer.advance
      data := l.data.map (fun d => { d with indexer := d.indexer.advance }) }

/-- The matrix stored under attribute `n`, or the zero matrix when absent —
a projection used only to state theorems. -/
def matAt (lca : LCA) (n : String) : Mat :=
  (lca.matrices n).getD (fun _ _ => 0)

/-- Concrete fixture records mirroring the repository's matrix tests:
raw row/column identifiers with the `to` columns still equal to them. -/
def recA : IndexRecord :=
  { rowFrom := 1, rowTo := 1, colFrom := 1, colTo := 1, typeCode := 0 }

def recB : IndexRecord :=
  { rowFrom := 1, rowTo := 1, colFrom := 2, colTo := 2, typeCode := 0 }

def recC : IndexRecord :=
  { rowFrom := 2, rowTo := 2, colFrom := 3, colTo := 3, typeCode := 0 }

/-- A fixture group with declared column fields, not yet indexed. -/
def mockGroup : ResourceGroup :=
  { rtype := "mock", matrix := "matrix", rowFromLabel := "f1", rowToLabel := "f3"
    rowDict := "row_dict", colFromLabel := some "f2", colToLabel := some "f4"
    colDict := some "col_dict"
    indices := [recA, recB, recC]
    samples := [[100, 101], [110, 111], [120, 121]]
    indexed := false }

/-- A fixture target exposing both dictionaries and the `matrix` attribute. -/
def mockLCA : LCA :=
  { dicts := fun n =>
      if n = "row_dict" then some (fun x => 2 * x)
      else if n = "col_dict" then some (fun x => 3 * x)
      else none
    matrices := fun n => if n = "matrix" then some (fun _ _ => 0) else none }

/-- A fixture target whose dictionaries changed after indexing and which
lacks every matrix attribute. -/
def mockLCA2 : LCA :=
  { dicts := fun n =>
      if n = "row_dict" then some (fun _ => 0)
      else if n = "col_dict" then some (fun _ => 0)
      else none
    matrices := fun _ => none }

/-- A group already marked `indexed` is returned untouched. -/
lemma indexElem_of_indexed (lca : LCA) (g : ResourceGroup) (h : g.indexed = true) :
    indexElem lca g = g := by
  simp [indexElem, h]

/-- C1: Indexing is one-shot and idempotent — once an `index()` call has
resolved a group and set `indexed = true`, any later `index()` call (against
any target, even one whose row or column dictionaries have changed) returns
the group unchanged, so resolution happens at most once per group. -/
theorem index_oneshot_idempotent (lca lca' : LCA) (g : ResourceGroup)
    (h : (indexElem lca g).indexed = true) :
    indexElem lca' (indexElem lca g) = indexElem lca g :=
  indexElem_of_indexed lca' (indexElem lca g) h

/-- Witness for C1: the fixture group is resolved by the first call against
`mockLCA`, and a second call against the changed target `mockLCA2` returns
it untouched. -/
theorem index_oneshot_idempotent_witness :
    (indexElem mockLCA mockGroup).indexed = true ∧
    indexElem mockLCA2 (indexElem mockLCA mockGroup) = indexElem mockLCA mockGroup :=
  ⟨by decide, index_oneshot_idempotent mockLCA mockLCA2 mockGroup (by decide)⟩

/-- C2: Resolution gating — an unindexed group is left untouched (no error,
flag still false, raw identifiers unchanged) by an `index()` call when the
target lacks the row dictionary or, with column fields declared, the column
dictionary; a later call against a target exposing every required dictionary
resolves the group. -/
theorem index_resolution_gating (lca lca' : LCA) (g : ResourceGroup)
    (h0 : g.indexed = false)
    (h1 : (lca.dicts g.rowDict).isNone = true ∨
      (g.colDict.isSome && (lca.dicts (g.colDict.getD "")).isNone) = true)
    (h2 : (lca'.dicts g.rowDict).isNone = false)
    (h3 : (g.colDict.isSome && (lca'.dicts (g.colDict.getD "")).isNone) = false) :
    indexElem lca g = g ∧ (indexElem lca' (indexElem lca g)).indexed = true := by
  have hskip : indexElem lca g = g := by
    by_cases hr : (lca.dicts g.rowDict).isNone
    · simp [indexElem, h0, hr]
    · rcases h1 with h1 | h1
      · exact absurd h1 hr
      · simp [indexElem, h0, hr, h1]
  refine ⟨hskip, ?_⟩
  rw [hskip]
  simp [indexElem, h0, h2, h3, resolveElem]

/-- Witness for C2: against the null target the fixture group is skipped;
against `mockLCA`, which exposes both dictionaries, it is then resolved. -/
theorem index_resolution_gating_witness :
    mockGroup.indexed = false ∧
    (nullLCA.dicts mockGroup.rowDict).isNone = true ∧
    (mockLCA.dicts mockGroup.rowDict).isNone = false ∧
    (mockGroup.colDict.isSome && (mockLCA.dicts (mockGroup.colDict.getD "")).isNone) = false ∧
    (indexElem nullLCA mockGroup = mockGroup ∧
      (indexElem mockLCA (indexElem nullLCA mockGroup)).indexed = true) :=
  ⟨by decide, by decide, by decide, by decide,
    index_resolution_gating nullLCA mockLCA mockGroup (by decide) (Or.inl (by decide))
      (by decide) (by decide)⟩

/-- C5: Missing-matrix skip is silent and frame-preserving — a group whose
matrix attribute the target lacks, or whose matrix the filter excludes, is
skipped by `update()` with no write and no exception, leaving the whole
target (in particular every other matrix) exactly as it was. -/
theorem update_missing_matrix_skip (lca : LCA) (idx : Nat) (fltr : Option (List String))
    (g : ResourceGroup)
    (h : lca.matrices g.matrix = none ∨ fltrExcludes fltr g.matrix = true) :
    updateElem lca idx fltr g = lca := by
  rcases h with h | h
  · simp [updateElem, h]
  · cases hm : lca.matrices g.matrix with
    | none => simp [updateElem, hm]
    | some m => simp [updateElem, hm, h]

/-- Witness for C5: a target without any matrix attribute is returned
untouched by the update step for the fixture group. -/
theorem update_missing_matrix_skip_witness :
    mockLCA2.matrices mockGroup.matrix = none ∧
    updateElem mockLCA2 0 none mockGroup = mockLCA2 :=
  ⟨rfl, update_missing_matrix_skip mockLCA2 0 none mockGroup (Or.inl rfl)⟩

/-- C7: Seed selection — the package's `Indexer` is seeded with the
caller-supplied override when one is given, and with the manifest seed
otherwise; an override replaces the manifest seed as the effective seed. -/
theorem seed_override_selection (m : Manifest) (o : Option Nat) (d : PackageData)
    (h : loadData m o = Except.ok d) :
    d.indexer.seed = o.or m.seed ∧
    (∀ s, o = some s → d.indexer.seed = some s) ∧
    (o = none → d.indexer.seed = m.seed) := by
  have hseed : d.indexer.seed = o.or m.seed := by
    cases hm : mapMExcept consolidate (groupRuns (sortByType (m.resources.filter isMatrixBound))) with
    | error e => rw [loadData] at h; rw [hm] at h; cases h
    | ok mdata =>
      rw [loadData] at h
      rw [hm] at h
      cases h
      rfl
  refine ⟨hseed, ?_, ?_⟩
  · intro s hs
    rw [hseed, hs]
    rfl
  · intro hnone
    rw [hseed, hnone]
    rfl

/-- A fixture manifest with no resources and its own seed 7. -/
def bareManifest : Manifest :=
  { name := "foo", id := "one", seed := some 7, resources := [] }

/-- The package `load_data` produces for `bareManifest` under override 42. -/
def barePackage : PackageData :=
  { name := "foo", id := "one", seed := some 7, matrixData := []
    parameterMetadata := [], indexer := mkIndexer (some 42) }

/-- Witness for C7: loading a package with override seed 42 yields an indexer
seeded 42, even though the manifest carries seed 7. -/
theorem seed_override_selection_witness :
    loadData bareManifest (some 42) = Except.ok barePackage ∧
    barePackage.indexer.seed = some 42 :=
  ⟨rfl,
    (seed_override_selection bareManifest (some 42) barePackage rfl).2.1 42 rfl⟩

/-- C8: Determinism of the index sequence — two independently constructed
sequencers with the same seed, each advanced any number of times, produce the
identical sequence of indices, and hence identical sampled columns from the
same sample store. -/
theorem indexer_determinism (seed : Option Nat) (n : Nat) (a b : Indexer)
    (store : List (List Int))
    (ha : a = mkIndexer seed) (hb : b = mkIndexer seed) :
    indexTrace a n = indexTrace b n ∧
    (indexTrace a n).map (sampleColumn store) = (indexTrace b n).map (sampleColumn store) := by
  subst ha
  subst hb
  exact ⟨rfl, rfl⟩

/-- Witness for C8 at seed 987654321, three advances, a two-segment store. -/
theorem indexer_determinism_witness :
    mkIndexer (some 987654321) = mkIndexer (some 987654321) ∧
    indexTrace (mkIndexer (some 987654321)) 3 = indexTrace (mkIndexer (some 987654321)) 3 ∧
    (indexTrace (mkIndexer (some 987654321)) 3).map (sampleColumn [[1, 2], [3, 4]])
      = (indexTrace (mkIndexer (some 987654321)) 3).map (sampleColumn [[1, 2], [3, 4]]) :=
  ⟨rfl,
    (indexer_determinism (some 987654321) 3 _ _ [[1, 2], [3, 4]] rfl rfl).1,
    (indexer_determinism (some 987654321) 3 _ _ [[1, 2], [3, 4]] rfl rfl).2⟩

/-- A position never assigned by `writePairs` keeps its prior value. -/
lemma writePairs_eq_of_notMem (l : List ((Nat × Nat) × Int)) (m : Mat) (p : Nat × Nat)
    (h : p ∉ l.map Prod.fst) : writePairs m l p.1 p.2 = m p.1 p.2 := by
  induction l generalizing m with
  | nil => rfl
  | cons pv rest ih =>
    simp only [List.map_cons, List.mem_cons] at h
    push_neg at h
    obtain ⟨h1, h2⟩ := h
    show writePairs (fun r c => if r = pv.1.1 ∧ c = pv.1.2 then pv.2 else m r c) rest p.1 p.2
      = m p.1 p.2
    rw [ih _ h2]
    have hne : ¬(p.1 = pv.1.1 ∧ p.2 = pv.1.2) := by
      intro hc
      exact h1 (Prod.ext hc.1 hc.2)
    simp [hne]

/-- With pairwise-distinct positions, `writePairs` stores each pair's value
at its position. -/
lemma writePairs_eq_of_mem (l : List ((Nat × Nat) × Int)) (m : Mat) (p : Nat × Nat) (v : Int)
    (hnd : (l.map Prod.fst).Nodup) (h : (p, v) ∈ l) : writePairs m l p.1 p.2 = v := by
  induction l generalizing m with
  | nil => cases h
  | cons pv rest ih =>
    simp only [List.map_cons, List.nodup_cons] at hnd
    obtain ⟨hnotin, hnd'⟩ := hnd
    show writePairs (fun r c => if r = pv.1.1 ∧ c = pv.1.2 then pv.2 else m r c) rest p.1 p.2 = v
    rcases List.mem_cons.mp h with heq | hmem
    · have hp : pv.1 = p := by rw [← heq]
      have hv : pv.2 = v := by rw [← heq]
      have hnot : p ∉ rest.map Prod.fst := by rw [← hp]; exact hnotin
      rw [writePairs_eq_of_notMem rest _ p hnot]
      simp [hp, hv]
    · exact ih _ hnd' hmem

/-- Indexing a zip of two lists at a common valid index yields the pair of
the components. -/
lemma zip_get_mem {α β : Type} : ∀ (ps : List α) (vs : List β) (i : Nat)
    (hp : i < ps.length) (hv : i < vs.length),
    (ps.get ⟨i, hp⟩, vs.get ⟨i, hv⟩) ∈ ps.zip vs := by
  intro ps
  induction ps with
  | nil => intro vs i hp; cases hp
  | cons a rest ih =>
    intro vs i hp hv
    cases vs with
    | nil => cases hv
    | cons b vrest =>
      cases i with
      | zero => simp [List.zip]
      | succ j =>
        have := ih vrest j (Nat.lt_of_succ_lt_succ hp) (Nat.lt_of_succ_lt_succ hv)
        simpa [List.zip] using Or.inr this

/-- `writePairs` over a zip of distinct positions with a matching value list
stores the `i`-th value at the `i`-th position. -/
lemma writePairs_get (ps : List (Nat × Nat)) (vs : List Int) (m : Mat)
    (hnd : ps.Nodup) (hlen : vs.length = ps.length) (i : Nat) (hi : i < ps.length) :
    writePairs m (ps.zip vs) (ps.get ⟨i, hi⟩).1 (ps.get ⟨i, hi⟩).2 = vs.getD i 0 := by
  have hvi : i < vs.length := by omega
  have hmem : (ps.get ⟨i, hi⟩, vs.get ⟨i, hvi⟩) ∈ ps.zip vs := zip_get_mem ps vs i hi hvi
  have hfst : (ps.zip vs).map Prod.fst = ps := List.map_fst_zip ps vs (by omega)
  have hnd2 : ((ps.zip vs).map Prod.fst).Nodup := by rw [hfst]; exact hnd
  rw [writePairs_eq_of_mem (ps.zip vs) m _ _ hnd2 hmem]
  rw [List.getD_eq_getElem vs 0 hvi]
  simp

/-- Core of the write-placement argument: when the target has the group's
matrix and the filter does not exclude it, the update step stores the `i`-th
written value at the `i`-th record's target position, provided the positions
are pairwise distinct and the value vector matches the record count. -/
lemma updateElem_value_at (lca : LCA) (idx : Nat) (fltr : Option (List String))
    (g : ResourceGroup) (m : Mat)
    (hm : lca.matrices g.matrix = some m)
    (hf : fltrExcludes fltr g.matrix = false)
    (hlen : (writeValues g idx).length = g.indices.length)
    (hnd : (g.indices.map (targetPos g)).Nodup)
    (i : Nat) (hi : i < g.indices.length) :
    matAt (updateElem lca idx fltr g) g.matrix
        (targetPos g (g.indices.get ⟨i, hi⟩)).1 (targetPos g (g.indices.get ⟨i, hi⟩)).2
      = (writeValues g idx).getD i 0 := by
  have hup : (updateElem lca idx fltr g).matrices g.matrix
      = some (writePairs m ((g.indices.map (targetPos g)).zip (writeValues g idx))) := by
    simp [updateElem, hm, hf]
  have hip : i < (g.indices.map (targetPos g)).length := by
    simpa using hi
  have hkey := writePairs_get (g.indices.map (targetPos g)) (writeValues g idx) m hnd
    (by simpa using hlen) i hip
  have hpos : (g.indices.map (targetPos g)).get ⟨i, hip⟩ = targetPos g (g.indices.get ⟨i, hi⟩) := by
    simp
  rw [hpos] at hkey
  rw [matAt, hup]
  exact hkey

/-- C4: Write placement — for a group that `update()` does not skip, the
`i`-th written value (the sampled value for record `i`, after the
technosphere sign fix-up when the group's type requires one) lands at
`matrix[row_to[i], col_to[i]]` when column fields are declared, and at the
diagonal `matrix[row_to[i], row_to[i]]` otherwise, provided the group's
target positions are pairwise distinct. -/
theorem update_write_placement (lca : LCA) (idx : Nat) (fltr : Option (List String))
    (g : ResourceGroup) (m : Mat)
    (hm : lca.matrices g.matrix = some m)
    (hf : fltrExcludes fltr g.matrix = false)
    (hlen : (writeValues g idx).length = g.indices.length)
    (hnd : (g.indices.map (targetPos g)).Nodup)
    (i : Nat) (hi : i < g.indices.length) :
    (g.colDict.isSome = true →
      matAt (updateElem lca idx fltr g) g.matrix
          (g.indices.get ⟨i, hi⟩).rowTo (g.indices.get ⟨i, hi⟩).colTo
        = (writeValues g idx).getD i 0) ∧
    (g.colDict.isSome = false →
      matAt (updateElem lca idx fltr g) g.matrix
          (g.indices.get ⟨i, hi⟩).rowTo (g.indices.get ⟨i, hi⟩).rowTo
        = (writeValues g idx).getD i 0) := by
  have hcore := updateElem_value_at lca idx fltr g m hm hf hlen hnd i hi
  constructor
  · intro hc
    rw [show targetPos g (g.indices.get ⟨i, hi⟩)
        = ((g.indices.get ⟨i, hi⟩).rowTo, (g.indices.get ⟨i, hi⟩).colTo) by
      simp [targetPos, hc]] at hcore
    exact hcore
  · intro hc
    rw [show targetPos g (g.indices.get ⟨i, hi⟩)
        = ((g.indices.get ⟨i, hi⟩).rowTo, (g.indices.get ⟨i, hi⟩).rowTo) by
      simp [targetPos, hc]] at hcore
    exact hcore

/-- Witness for C4: updating the fixture group against `mockLCA` at sample
index 0 stores the first sampled value at the first record's (row, col)
positions. -/
theorem update_write_placement_witness :
    mockLCA.matrices mockGroup.matrix = some (fun _ _ => 0) ∧
    (writeValues mockGroup 0).length = mockGroup.indices.length ∧
    (mockGroup.indices.map (targetPos mockGroup)).Nodup ∧
    matAt (updateElem mockLCA 0 none mockGroup) mockGroup.matrix
        (mockGroup.indices.get ⟨0, by decide⟩).rowTo (mockGroup.indices.get ⟨0, by decide⟩).colTo
      = (writeValues mockGroup 0).getD 0 0 :=
  ⟨rfl, by decide, by decide,
    (update_write_placement mockLCA 0 none mockGroup (fun _ _ => 0) rfl rfl (by decide)
      (by decide) 0 (by decide)).1 (by decide)⟩

/-- C9: Stale identity writes — on a group whose `row to`/`col to` columns
still equal the raw identifiers (no successful `index()` yet), `update()`
does not fail or skip: it writes the values at the raw-identifier positions,
off-diagonal for groups with column fields and diagonal otherwise. -/
theorem update_stale_identity_writes (lca : LCA) (idx : Nat) (fltr : Option (List String))
    (g : ResourceGroup) (m : Mat)
    (hm : lca.matrices g.matrix = some m)
    (hf : fltrExcludes fltr g.matrix = false)
    (hstale : ∀ r ∈ g.indices, r.rowTo = r.rowFrom ∧ r.colTo = r.colFrom)
    (hlen : (writeValues g idx).length = g.indices.length)
    (hnd : (g.indices.map (targetPos g)).Nodup)
    (i : Nat) (hi : i < g.indices.length) :
    (g.colDict.isSome = true →
      matAt (updateElem lca idx fltr g) g.matrix
          (g.indices.get ⟨i, hi⟩).rowFrom (g.indices.get ⟨i, hi⟩).colFrom
        = (writeValues g idx).getD i 0) ∧
    (g.colDict.isSome = false →
      matAt (updateElem lca idx fltr g) g.matrix
          (g.indices.get ⟨i, hi⟩).rowFrom (g.indices.get ⟨i, hi⟩).rowFrom
        = (writeValues g idx).getD i 0) := by
  have hcore := updateElem_value_at lca idx fltr g m hm hf hlen hnd i hi
  have hr := hstale (g.indices.get ⟨i, hi⟩) (List.get_mem g.indices i hi)
  constructor
  · intro hc
    rw [show targetPos g (g.indices.get ⟨i, hi⟩)
        = ((g.indices.get ⟨i, hi⟩).rowFrom, (g.indices.get ⟨i, hi⟩).colFrom) by
      simp only [targetPos, hc, if_true]
      exact Prod.ext hr.1 hr.2] at hcore
    exact hcore
  · intro hc
    rw [show targetPos g (g.indices.get ⟨i, hi⟩)
        = ((g.indices.get ⟨i, hi⟩).rowFrom, (g.indices.get ⟨i, hi⟩).rowFrom) by
      simp only [targetPos, hc, Bool.false_eq_true, if_false]
      exact Prod.ext hr.1 hr.1] at hcore
    exact hcore

/-- Witness for C9: the fixture group's `to` columns still equal the raw
identifiers, and updating at sample index 1 writes the second record's value
at its raw (row, col) pair. -/
theorem update_stale_identity_writes_witness :
    mockLCA.matrices mockGroup.matrix = some (fun _ _ => 0) ∧
    (∀ r ∈ mockGroup.indices, r.rowTo = r.rowFrom ∧ r.colTo = r.colFrom) ∧
    matAt (updateElem mockLCA 1 none mockGroup) mockGroup.matrix
        (mockGroup.indices.get ⟨1, by decide⟩).rowFrom (mockGroup.indices.get ⟨1, by decide⟩).colFrom
      = (writeValues mockGroup 1).getD 1 0 :=
  ⟨rfl, by decide,
    (update_stale_identity_writes mockLCA 1 none mockGroup (fun _ _ => 0) rfl rfl (by decide)
      (by decide) (by decide) 1 (by decide)).1 (by decide)⟩

/-- A list containing two distinct elements has a deduplicated length other
than one. -/
lemma dedup_length_ne_one {α : Type} [DecidableEq α] {l : List α} {a b : α}
    (ha : a ∈ l) (hb : b ∈ l) (hab : a ≠ b) : l.dedup.length ≠ 1 := by
  intro h
  obtain ⟨x, hx⟩ := List.length_eq_one.mp h
  have ha' : a ∈ l.dedup := List.mem_dedup.mpr ha
  have hb' : b ∈ l.dedup := List.mem_dedup.mpr hb
  rw [hx] at ha' hb'
  simp only [List.mem_singleton] at ha' hb'
  exact hab (ha'.trans hb'.symm)

/-- Inserting into a list whose keys all equal the inserted key prepends. -/
lemma insertByKey_all_eq (r : RawResource) (l : List RawResource)
    (h : ∀ x ∈ l, x.rtype = r.rtype) : insertByKey r l = r :: l := by
  cases l with
  | nil => rfl
  | cons s rest =>
    have hs : s.rtype = r.rtype := h s (by simp)
    have hlt : ¬s.rtype < r.rtype := by rw [hs]; exact lt_irrefl _
    simp [insertByKey, hlt]

/-- The stable sort is the identity on a list whose keys are all equal. -/
lemma sortByType_all_eq (l : List RawResource)
    (h : ∀ x ∈ l, ∀ y ∈ l, x.rtype = y.rtype) : sortByType l = l := by
  induction l with
  | nil => rfl
  | cons a rest ih =>
    have hrest : sortByType rest = rest :=
      ih (fun x hx y hy => h x (by simp [hx]) y (by simp [hy]))
    show insertByKey a (sortByType rest) = a :: rest
    rw [hrest]
    exact insertByKey_all_eq a rest (fun x hx => h x (by simp [hx]) a (by simp))

/-- Grouping a nonempty all-equal-key list yields that single group. -/
lemma groupRuns_all_eq : ∀ (a : RawResource) (l : List RawResource),
    (∀ x ∈ l, x.rtype = a.rtype) → groupRuns (a :: l) = [a :: l] := by
  intro a l
  induction l generalizing a with
  | nil => intro _; rfl
  | cons b rest ih =>
    intro h
    have hb : b.rtype = a.rtype := h b (by simp)
    have hrec : groupRuns (b :: rest) = [b :: rest] :=
      ih b (fun x hx => (h x (by simp [hx])).trans hb.symm)
    show (match groupRuns (b :: rest) with
      | [] => [[a]]
      | [] :: gs => [a] :: gs
      | (s :: g) :: gs =>
        if a.rtype = s.rtype then (a :: s :: g) :: gs else [a] :: (s :: g) :: gs) = [a :: b :: rest]
    rw [hrec]
    simp [hb]

/-- C3: Consolidation conflict on the matrix target — a group holding two
resources with different `matrix` values makes `consolidate` fail with the
conflicting-matrix-target error (the source's `assert`, raised before any
label, schema or data handling), and `load_data` on a manifest whose
matrix-bound resources form such a group fails the same way at load time,
before a loader exists to run any indexing. -/
theorem consolidate_conflicting_matrix (g : List RawResource) (r1 r2 : RawResource)
    (h1 : r1 ∈ g) (h2 : r2 ∈ g) (hne : r1.matrix ≠ r2.matrix) :
    consolidate g = Except.error LoadErr.conflictingMatrixTarget ∧
    (∀ (nm pid : String) (pseed o : Option Nat),
      (∀ r ∈ g, isMatrixBound r = true) →
      (∀ x ∈ g, ∀ y ∈ g, x.rtype = y.rtype) →
      loadData { name := nm, id := pid, seed := pseed, resources := g } o
        = Except.error LoadErr.conflictingMatrixTarget) := by
  have hcon : consolidate g = Except.error LoadErr.conflictingMatrixTarget := by
    have hc : (g.map (·.matrix)).dedup.length ≠ 1 :=
      dedup_length_ne_one (List.mem_map_of_mem _ h1) (List.mem_map_of_mem _ h2) hne
    simp [consolidate, hc]
  refine ⟨hcon, ?_⟩
  intro nm pid pseed o hall hty
  have hfil : g.filter isMatrixBound = g := List.filter_eq_self.mpr hall
  have hsort : sortByType g = g := sortByType_all_eq g hty
  cases hg : g with
  | nil => rw [hg] at h1; cases h1
  | cons a rest =>
    have hgr : groupRuns (a :: rest) = [a :: rest] :=
      groupRuns_all_eq a rest (fun x hx => hty x (by rw [hg]; simp [hx]) a (by rw [hg]; simp))
    rw [hg] at hfil hsort hcon
    simp [loadData, hfil, hsort, hgr, mapMExcept, hcon]

/-- A fixture resource bound to matrix `"a"`. -/
def resX : RawResource :=
  { rtype := "mock", matrix := "a", rowFromLabel := "f1", rowToLabel := "f3"
    rowDict := "row_dict", colFromLabel := none, colToLabel := none, colDict := none
    names := [], indicesDtype := ["f1", "f3"], indices := [], samples := [] }

/-- The same resource bound to a different matrix `"b"`. -/
def resY : RawResource :=
  { resX with matrix := "b" }

/-- Witness for C3: consolidating the two conflicting fixture resources, or
loading a manifest holding them, fails with the conflicting-matrix error. -/
theorem consolidate_conflicting_matrix_witness :
    resX ∈ [resX, resY] ∧ resY ∈ [resX, resY] ∧ resX.matrix ≠ resY.matrix ∧
    consolidate [resX, resY] = Except.error LoadErr.conflictingMatrixTarget ∧
    loadData { name := "n", id := "i", seed := none, resources := [resX, resY] } none
      = Except.error LoadErr.conflictingMatrixTarget :=
  ⟨by decide, by decide, by decide,
    (consolidate_conflicting_matrix [resX, resY] resX resY (by decide) (by decide) (by decide)).1,
    (consolidate_conflicting_matrix [resX, resY] resX resY (by decide) (by decide) (by decide)).2
      "n" "i" none none (by decide) (by decide)⟩

/-- The only exception `colTriple` can raise is a `KeyError`. -/
lemma colTriple_error_eq (r : RawResource) (e : LoadErr)
    (h : colTriple r = Except.error e) : e = LoadErr.keyError := by
  unfold colTriple at h
  split at h
  · exact Except.noConfusion h
  · injection h with h
    exact h.symm

/-- Collecting the column triples of a group fails with `KeyError` as soon as
one member lacks one of the three column keys. -/
lemma mapMExcept_colTriple_error (g : List RawResource) (r : RawResource) (hr : r ∈ g)
    (hmiss : r.colFromLabel = none ∨ r.colToLabel = none ∨ r.colDict = none) :
    mapMExcept colTriple g = Except.error LoadErr.keyError := by
  induction g with
  | nil => cases hr
  | cons a rest ih =>
    rcases List.mem_cons.mp hr with heq | hmem
    · subst heq
      have hra : colTriple r = Except.error LoadErr.keyError := by
        unfold colTriple
        split
        · rename_i a b c heq
          rcases hmiss with h | h | h <;> simp_all
        · rfl
      simp [mapMExcept, hra]
    · cases hca : colTriple a with
      | error e =>
        have he := colTriple_error_eq a e hca
        subst he
        simp [mapMExcept, hca]
      | ok v => simp [mapMExcept, hca, ih hmem]

/-- C10: The column-label agreement check of `consolidate` runs only when at
least one member declares a `col dict` key, and then reads the column label
keys of every member: a group mixing members with and without column fields
(matrix and row checks passing) fails with a plain `KeyError`, not with the
dedicated conflicting-labels error; a group in which no member declares
column fields undergoes no column check at all, so it can raise neither a
`KeyError` nor a conflicting-labels error. -/
theorem consolidate_col_gate_keyerror (g : List RawResource)
    (hmx : (g.map (·.matrix)).dedup.length = 1)
    (hrow : (g.map rowTriple).dedup.length = 1) :
    (∀ r1 ∈ g, r1.colDict.isSome = true →
      ∀ r2 ∈ g, (r2.colFromLabel = none ∨ r2.colToLabel = none ∨ r2.colDict = none) →
        consolidate g = Except.error LoadErr.keyError) ∧
    ((∀ r ∈ g, r.colDict = none) →
      consolidate g ≠ Except.error LoadErr.keyError ∧
      consolidate g ≠ Except.error LoadErr.conflictingLabels) := by
  constructor
  · intro r1 hr1 hsome r2 hr2 hmiss
    have hany : g.any (fun r => r.colDict.isSome) = true :=
      List.any_eq_true.mpr ⟨r1, hr1, hsome⟩
    have hcheck : checkColTriples g = Except.error LoadErr.keyError := by
      unfold checkColTriples
      rw [mapMExcept_colTriple_error g r2 hr2 hmiss]
    simp [consolidate, hmx, hrow, hany, hcheck]
  · intro hnone
    have hany : g.any (fun r => r.colDict.isSome) = false := by
      simp only [List.any_eq_false]
      intro r hr
      simp [hnone r hr]
    have hshape : consolidate g = Except.error LoadErr.incompatibleIndices ∨
        ∃ rg, consolidate g = Except.ok rg := by
      unfold consolidate
      simp only [hmx, hrow, hany, ne_eq, not_true_eq_false, if_false, Bool.false_eq_true,
        ite_false]
      by_cases hd : (g.map (·.indicesDtype)).dedup.length = 1
      · simp only [hd, not_true_eq_false, if_false]
        cases hg : g with
        | nil =>
          rw [hg] at hmx
          simp at hmx
        | cons g0 grest => exact Or.inr ⟨_, rfl⟩
      · simp [hd]
    rcases hshape with h | ⟨rg, h⟩ <;> rw [h] <;> exact ⟨by simp, by simp⟩

/-- A fixture resource with full column fields. -/
def resColFull : RawResource :=
  { rtype := "mock", matrix := "m", rowFromLabel := "f1", rowToLabel := "f3"
    rowDict := "rd", colFromLabel := some "f2", colToLabel := some "f4"
    colDict := some "cd", names := [], indicesDtype := ["f1"], indices := [], samples := [] }

/-- The same resource with every column field absent. -/
def resColNone : RawResource :=
  { resColFull with colFromLabel := none, colToLabel := none, colDict := none }

/-- Witness for C10: a group mixing `resColFull` (column fields declared) and
`resColNone` (no column fields) fails consolidation with a `KeyError`. -/
theorem consolidate_col_gate_keyerror_witness :
    ([resColFull, resColNone].map (·.matrix)).dedup.length = 1 ∧
    ([resColFull, resColNone].map rowTriple).dedup.length = 1 ∧
    consolidate [resColFull, resColNone] = Except.error LoadErr.keyError :=
  ⟨by decide, by decide,
    (consolidate_col_gate_keyerror [resColFull, resColNone] (by decide) (by decide)).1
      resColFull (by decide) (by decide) resColNone (by decide) (Or.inl (by decide))⟩


/-- The section `load_data` produces for a manifest with no matrix-bound
resources. -/
def emptySectionOf (m : Manifest) (o : Option Nat) : PackageData :=
  { name := m.name
    id := m.id
    seed := m.seed
    matrixData := []
    parameterMetadata := m.resources.filter hasNames
    indexer := mkIndexer (o.or m.seed) }

/-- `load_data` on a manifest with no matrix-bound resources succeeds and
produces a section with empty `matrix-data`. -/
lemma loadData_no_matrix (m : Manifest) (o : Option Nat)
    (h : ∀ r ∈ m.resources, isMatrixBound r = false) :
    loadData m o = Except.ok (emptySectionOf m o) := by
  have hfil : m.resources.filter isMatrixBound = [] := by
    rw [List.filter_eq_nil_iff]
    intro a ha
    simp [h a ha]
  simp [loadData, hfil, sortByType, groupRuns, mapMExcept, emptySectionOf]

/-- Loading a list of matrix-less manifests succeeds with every section's
`matrix-data` empty. -/
lemma mapM_loadData_empty (ms : List Manifest) (o : Option Nat)
    (h : ∀ m ∈ ms, ∀ r ∈ m.resources, isMatrixBound r = false) :
    ∃ secs, mapMExcept (fun m => loadData m o) ms = Except.ok secs ∧
      ∀ s ∈ secs, s.matrixData = [] := by
  induction ms with
  | nil => exact ⟨[], rfl, by simp⟩
  | cons m rest ih =>
    obtain ⟨secs, hsecs, hall⟩ := ih (fun x hx => h x (by simp [hx]))
    refine ⟨emptySectionOf m o :: secs, ?_, ?_⟩
    · simp only [mapMExcept, loadData_no_matrix m o (h m (by simp)), hsecs]
    · intro s hs
      rcases List.mem_cons.mp hs with heq | hmem
      · rw [heq]
        rfl
      · exact hall s hmem

/-- The loader `__init__` builds when no section carries matrix data. -/
def emptyLoaderOf (o : Option Nat) (secs : List PackageData) : Loader :=
  { seed := o
    data := []
    parameterMetadata := (secs.filter (fun s => !s.parameterMetadata.isEmpty)).map
      (·.parameterMetadata)
    sampleIndexers := secs.map (·.indexer)
    msi := []
    psi := (secs.filter (fun s => !s.parameterMetadata.isEmpty)).map (·.indexer)
    empty := true }

/-- C6: Empty gate — when no manifest holds any matrix-bound resource, the
constructed loader reports `empty = true`, and both `index_arrays` and
`update_matrices` return immediately without touching the loader or the
target, for every target value (including the null/placeholder target). -/
theorem empty_gate_noops (ms : List Manifest) (o : Option Nat)
    (h : ∀ m ∈ ms, ∀ r ∈ m.resources, isMatrixBound r = false) :
    ∃ l, mkLoader ms o = Except.ok l ∧ l.empty = true ∧
      (∀ lca, indexArrays l lca = l) ∧
      (∀ lca fltr, updateMatrices l lca fltr = lca) := by
  obtain ⟨secs, hsecs, hall⟩ := mapM_loadData_empty ms o h
  have hfil : secs.filter (fun s => !s.matrixData.isEmpty) = [] := by
    rw [List.filter_eq_nil_iff]
    intro s hs
    simp [hall s hs]
  refine ⟨emptyLoaderOf o secs, ?_, rfl, ?_, ?_⟩
  · simp [mkLoader, hsecs, hfil, emptyLoaderOf]
  · intro lca
    simp [indexArrays, emptyLoaderOf]
  · intro lca fltr
    simp [updateMatrices, emptyLoaderOf]

/-- A fixture resource carrying only named parameters. -/
def resParamOnly : RawResource :=
  { rtype := "", matrix := "", rowFromLabel := "", rowToLabel := "", rowDict := ""
    colFromLabel := none, colToLabel := none, colDict := none, names := ["p1"]
    indicesDtype := [], indices := [], samples := [] }

/-- A fixture manifest holding only the parameter resource. -/
def manifestParamOnly : Manifest :=
  { name := "foo", id := "one", seed := none, resources := [resParamOnly] }

/-- Witness for C6: a loader over a single parameter-only package is empty
and its `index`/`update` entry points are no-ops. -/
theorem empty_gate_noops_witness :
    (∀ m ∈ [manifestParamOnly], ∀ r ∈ m.resources, isMatrixBound r = false) ∧
    (∃ l, mkLoader [manifestParamOnly] none = Except.ok l ∧ l.empty = true ∧
      (∀ lca, indexArrays l lca = l) ∧
      (∀ lca fltr, updateMatrices l lca fltr = lca)) :=
  ⟨by decide, empty_gate_noops [manifestParamOnly] none (by decide)⟩
